import Mathlib

/-!
Verification development for the plugin-loader pipeline module
(`plugin_loader`: `load_config`, `resolve_module_name`, `load_plugins`,
`build_pipeline`, `init_pipeline` and the error classes
`PluginLoaderError` / `ConfigError` / `RegistryError` / `PipelineError`).

The Python module is shallowly embedded: JSON documents become the
inductive `JVal`, registries become association lists from step names to
unary callables of type `a -> Except String a` (an exception is modelled
by its message), the two process-wide caches (the `functools.lru_cache`
of `load_plugins`, maxsize 32, and the `_pipeline_cache` attribute of
`init_pipeline`) become an explicit `LoaderState` threaded through the
functions, and the ambient process (environment variable, file system,
importable modules) becomes an explicit `World` record.
-/

set_option autoImplicit false

namespace PluginLoader

universe u

variable {α : Type} {κ : Type} {β : Type}

/-- A single-quote character as a string, used to build the exact Python
f-string messages of the source. -/
def sq : String := String.singleton (Char.ofNat 39)

/-- Dynamically typed JSON values, the result of `json.load`. -/
inductive JVal where
  | jnull
  | jbool (b : Bool)
  | jint (n : Int)
  | jstr (s : String)
  | jarr (items : List JVal)
  | jobj (fields : List (String × JVal))

mutual

/-- Python `repr` of a parsed JSON value (plain strings, no escaping),
used by the `f"...{x!r}"` error messages of the source. -/
def pyRepr : JVal → String
  | .jnull => "None"
  | .jbool true => "True"
  | .jbool false => "False"
  | .jint n => toString n
  | .jstr s => sq ++ s ++ sq
  | .jarr items => "[" ++ pyReprItems items ++ "]"
  | .jobj fields => "\x7b" ++ pyReprFields fields ++ "\x7d"

def pyReprItems : List JVal → String
  | [] => ""
  | [v] => pyRepr v
  | v :: rest => pyRepr v ++ ", " ++ pyReprItems rest

def pyReprFields : List (String × JVal) → String
  | [] => ""
  | [(k, v)] => sq ++ k ++ sq ++ ": " ++ pyRepr v
  | (k, v) :: rest => sq ++ k ++ sq ++ ": " ++ pyRepr v ++ ", " ++ pyReprFields rest

end

/-- Python truthiness of a JSON value (`if x:`). -/
def truthy : JVal → Bool
  | .jnull => false
  | .jbool b => b
  | .jint n => n != 0
  | .jstr s => s != ""
  | .jarr items => !items.isEmpty
  | .jobj fields => !fields.isEmpty

/-- Association-list lookup, modelling Python dict indexing / `in` /
`.get` (dict keys are unique, so first match is the match). -/
def lookupA [DecidableEq κ] : List (κ × β) → κ → Option β
  | [], _ => none
  | (k, v) :: rest, key => if k = key then some v else lookupA rest key

/-- The error taxonomy of the source: `PluginLoaderError` is the base
class and each constructor is one of its subclasses.  `pipelineError`
carries the `__cause__` set by `raise ... from exc` (the message of the
wrapped exception), which the source only sets on execution failures. -/
inductive PLError where
  | configError (msg : String)
  | registryError (msg : String)
  | pipelineError (msg : String) (cause : Option String)
  deriving DecidableEq

def isConfigError : PLError → Bool
  | .configError _ => true
  | _ => false

def isRegistryError : PLError → Bool
  | .registryError _ => true
  | _ => false

def isPipelineError : PLError → Bool
  | .pipelineError _ _ => true
  | _ => false

/-- The dynamic class of an error, what a Python `except` clause can
branch on. -/
def errClass : PLError → Nat
  | .configError _ => 0
  | .registryError _ => 1
  | .pipelineError _ _ => 2

/-- An exception escaping `init_pipeline`: either one of the
`PluginLoaderError` subclasses, or a foreign exception (the source can
leak e.g. a `TypeError` out of `importlib` when the resolved module name
is not a string). -/
inductive PyExc where
  | pl (e : PLError)
  | nonPL (msg : String)
  deriving DecidableEq

/-- A key of a registry dict as found on a module: either a string or
some other value (carried as its `repr`). -/
inductive RKey where
  | kstr (s : String)
  | kother (r : String)

/-- A value of a registry dict: a unary callable (raising is modelled as
`Except.error` with the exception message) or a non-callable value
(carried as its `repr`). -/
inductive REntry (α : Type) where
  | efn (f : α → Except String α)
  | enotCallable (r : String)

/-- A dynamically typed value found at `REGISTRY` or returned by a
factory: a dict, a callable (whose invocation yields the payload of
`rcallable`, or raises), or anything else. -/
inductive RVal (α : Type) where
  | rdict (entries : List (RKey × REntry α))
  | rcallable (call : Except String (RVal α))
  | rother (r : String)

/-- An importable Python module surface: its `REGISTRY` attribute and
its `get_registry` attribute, when present. -/
structure PyModule (α : Type) where
  REGISTRY : Option (RVal α)
  get_registry : Option (RVal α)

/-- Outcome of reading and JSON-parsing the file at a path. -/
inductive FileOutcome where
  | missing
  | badJson (msg : String)
  | parsed (v : JVal)

/-- The ambient process: the `PLUGINS_MODULE` environment variable, the
file system as seen by `load_config`, and the importable modules as seen
by `importlib.import_module` (absence models `ModuleNotFoundError`). -/
structure World (α : Type) where
  env : Option String
  readFile : String → FileOutcome
  modules : String → Option (PyModule α)

/-- A validated registry: step name to bound callable. -/
abbrev Registry (α : Type) := List (String × (α → Except String α))

/-- The pipeline closure returned by `build_pipeline`: the captured
`step_list` and the pre-resolved `callables`. -/
structure Pipe (α : Type) where
  names : List String
  fns : List (α → Except String α)

/-- The mutable module state: the `functools.lru_cache` of
`load_plugins` (most recently used first), the `_pipeline_cache`
attribute of `init_pipeline`, and two instrumentation counters — how
many times the body of `load_plugins` actually ran (an import plus
registry extraction) and how many times `build_pipeline` was invoked. -/
structure LoaderState (α : Type) where
  regCache : List (String × Registry α)
  pipeCache : List ((String × List String) × Pipe α)
  importCount : Nat
  buildCount : Nat

/-- The state of a fresh process: both caches empty, no work done. -/
def emptyState : LoaderState α := ⟨[], [], 0, 0⟩

/-- Source `load_config`: read the file, parse, require a JSON object. -/
def load_config (w : World α) (path : String) : Except PLError (List (String × JVal)) :=
  match w.readFile path with
  | .missing => .error (.configError ("Config file not found: " ++ path))
  | .badJson msg => .error (.configError ("Invalid JSON in config " ++ path ++ ": " ++ msg))
  | .parsed (.jobj fields) => .ok fields
  | .parsed _ => .error (.configError ("Config " ++ path ++ " must be a JSON object at top level"))

/-- Python truthiness of `os.getenv(...)`: unset or empty is falsy. -/
def envTruthy : Option String → Bool
  | none => false
  | some s => s != ""

/-- Source `resolve_module_name`: the environment variable wins when
truthy; else `config.get("module") or "plugins"` with Python
truthiness (the `isinstance` guard makes a non-dict config fall back to
the default as well). -/
def resolve_module_name (env : Option String) (config : JVal) : JVal :=
  if envTruthy env then .jstr (env.getD "")
  else
    match (match config with | .jobj fields => lookupA fields "module" | _ => none) with
    | some v => if truthy v then v else .jstr "plugins"
    | none => .jstr "plugins"

def invalidEntryMsg (i : Nat) (v : JVal) : String :=
  "Config " ++ sq ++ "steps" ++ sq ++ " contains invalid entry at index " ++ toString i ++ ": " ++ pyRepr v

/-- The `for i, s in enumerate(steps)` loop of `_validate_steps_list`:
every entry must be a non-empty string; the first offender is reported
with its index. -/
def validateEntriesFrom : List JVal → Nat → Except PLError (List String)
  | [], _ => .ok []
  | .jstr s :: rest, i =>
    if s = "" then .error (.configError (invalidEntryMsg i (.jstr s)))
    else (validateEntriesFrom rest (i + 1)).map (fun l => s :: l)
  | v :: _, i => .error (.configError (invalidEntryMsg i v))

/-- Source `_validate_steps_list`: `steps` must be a non-empty list of
non-empty strings. -/
def validate_steps_list : JVal → Except PLError (List String)
  | .jarr items =>
    if items.isEmpty then
      .error (.configError ("Config " ++ sq ++ "steps" ++ sq ++ " must not be empty"))
    else validateEntriesFrom items 0
  | _ => .error (.configError ("Config " ++ sq ++ "steps" ++ sq ++ " must be a list of plugin names"))

/-- The item loop of `_validate_registry`: every key a string, every
value callable; the validated mapping is the one used downstream. -/
def validateRegEntries : List (RKey × REntry α) → Except PLError (Registry α)
  | [] => .ok []
  | (.kstr s, .efn f) :: rest => (validateRegEntries rest).map (fun r => (s, f) :: r)
  | (.kstr s, .enotCallable _) :: _ =>
    .error (.registryError ("Registry entry for " ++ sq ++ s ++ sq ++ " is not callable"))
  | (.kother r, _) :: _ => .error (.registryError ("Registry key is not str: " ++ r))

/-- Source `_validate_registry`: the registry value must be a dict of
string keys to callables. -/
def validate_registry : RVal α → Except PLError (Registry α)
  | .rdict entries => validateRegEntries entries
  | _ => .error (.registryError "Registry must be a dict of name->callable")

/-- The attribute-probing part of `load_plugins`: prefer `REGISTRY`
(calling it once when callable), else a callable `get_registry`, else
fail. -/
def moduleRegistryValue (m : PyModule α) (module_name : String) : Except PLError (RVal α) :=
  match m.REGISTRY with
  | some (.rcallable c) =>
    match c with
    | .ok v => .ok v
    | .error exc =>
      .error (.registryError ("Calling REGISTRY factory in module " ++ sq ++ module_name ++ sq ++ " failed: " ++ exc))
  | some v => .ok v
  | none =>
    match m.get_registry with
    | some (.rcallable c) =>
      match c with
      | .ok v => .ok v
      | .error exc =>
        .error (.registryError ("Calling get_registry() in module " ++ sq ++ module_name ++ sq ++ " failed: " ++ exc))
    | _ =>
      .error (.registryError ("Plugin module " ++ sq ++ module_name ++ sq ++ " does not expose REGISTRY or get_registry()"))

/-- The body of `load_plugins` (the work done on an lru-cache miss):
it imports the module, extracts the registry value, validates it. -/
def load_plugins_body (w : World α) (module_name : String) : Except PLError (Registry α) :=
  match w.modules module_name with
  | none => .error (.registryError ("Plugin module not found: " ++ module_name))
  | some m => (moduleRegistryValue m module_name).bind validate_registry

def eraseKey [DecidableEq κ] (c : List (κ × β)) (k : κ) : List (κ × β) :=
  c.filter (fun p => decide (p.1 ≠ k))

/-- An `functools.lru_cache` hit: the entry is moved to the front
(most recently used). -/
def lruGet [DecidableEq κ] (c : List (κ × β)) (k : κ) : Option (β × List (κ × β)) :=
  match lookupA c k with
  | none => none
  | some v => some (v, (k, v) :: eraseKey c k)

/-- An `functools.lru_cache` insert with `maxsize=32`: prepend, evict
the least recently used entry beyond capacity. -/
def lruPut [DecidableEq κ] (c : List (κ × β)) (k : κ) (v : β) : List (κ × β) :=
  ((k, v) :: c).take 32

/-- Source `load_plugins` as decorated by `functools.lru_cache(32)`:
successful results are cached per module name, exceptions are not. -/
def load_plugins (w : World α) (module_name : String) (s : LoaderState α) :
    Except PLError (Registry α) × LoaderState α :=
  match lruGet s.regCache module_name with
  | some (reg, c) => (.ok reg, { s with regCache := c })
  | none =>
    match load_plugins_body w module_name with
    | .ok reg =>
      (.ok reg, { s with regCache := lruPut s.regCache module_name reg,
                         importCount := s.importCount + 1 })
    | .error e => (.error e, { s with importCount := s.importCount + 1 })

/-- The first index of the `step_list` holding an invalid (empty) name,
mirroring the first loop of `build_pipeline` (entries are strings by
typing, so only emptiness can offend). -/
def invalidNameIdx : List String → Nat → Option Nat
  | [], _ => none
  | s :: rest, i => if s = "" then some i else invalidNameIdx rest (i + 1)

/-- Python `repr` of a list of strings, as interpolated by
`f"...{missing}..."`. -/
def pyStrList (xs : List String) : String :=
  "[" ++ String.intercalate ", " (xs.map (fun s => sq ++ s ++ sq)) ++ "]"

def invalidStepMsg (i : Nat) (s : String) : String :=
  "Invalid step name at index " ++ toString i ++ ": " ++ sq ++ s ++ sq

def unknownStepsMsg (missing avail : List String) : String :=
  "Unknown pipeline steps: " ++ pyStrList missing ++ ". Available: " ++ pyStrList avail

def execMsg (stepName exc : String) : String :=
  "Error in step " ++ sq ++ stepName ++ sq ++ ": " ++ exc

/-- `registry[s]` after the missing-steps guard has passed; the default
is unreachable then. -/
def resolveFn (registry : Registry α) (s : String) : α → Except String α :=
  (lookupA registry s).getD (fun x => .ok x)

/-- Source `build_pipeline`: reject invalid names, report all names
missing from the registry at once (with a 20-name preview of the
available keys), then pre-resolve the callables and return the pipeline
closure. -/
def build_pipeline (registry : Registry α) (steps : List String) : Except PLError (Pipe α) :=
  match invalidNameIdx steps 0 with
  | some i => .error (.pipelineError (invalidStepMsg i "") none)
  | none =>
    let missing := steps.filter (fun s => (lookupA registry s).isNone)
    if missing.isEmpty then .ok ⟨steps, steps.map (resolveFn registry)⟩
    else .error (.pipelineError (unknownStepsMsg missing ((registry.map Prod.fst).take 20)) none)

/-- The pipeline value `build_pipeline` produces on success. -/
def pipeOf (registry : Registry α) (steps : List String) : Pipe α :=
  ⟨steps, steps.map (resolveFn registry)⟩

/-- The `for idx, fn in enumerate(callables)` loop of the inner
`pipeline` closure: apply the callables in order, wrapping the first
failure in a `PipelineError` built from `step_list[idx]` and chaining
the underlying exception as the cause. -/
def pipelineRun (names : List String) : List (α → Except String α) → Nat → α → Except PLError α
  | [], _, value => .ok value
  | f :: rest, idx, value =>
    match f value with
    | .ok v => pipelineRun names rest (idx + 1) v
    | .error exc => .error (.pipelineError (execMsg (names.getD idx "") exc) (some exc))

/-- Calling the composed pipeline on an input. -/
def applyPipe (p : Pipe α) (x : α) : Except PLError α :=
  pipelineRun p.names p.fns 0 x

/-- Plain left-to-right Kleisli composition of the callables, the
specification-side description of pipeline execution. -/
def composeLtr : List (α → Except String α) → α → Except String α
  | [], x => .ok x
  | f :: rest, x =>
    match f x with
    | .ok v => composeLtr rest v
    | .error exc => .error exc

/-- Lines 233-236 of `init_pipeline`: require a `steps` key, then
validate it. -/
def stepsResult (config : List (String × JVal)) : Except PLError (List String) :=
  match lookupA config "steps" with
  | none => .error (.configError ("Config must include a top-level " ++ sq ++ "steps" ++ sq ++ " list"))
  | some sv => validate_steps_list sv

/-- The caching tail of `init_pipeline` once the registry is in hand:
look up the pipeline cache under `(module_name, tuple(steps))`, and only
on a miss invoke `build_pipeline` and store the result. -/
def cacheOrBuild (module_name : String) (steps : List String) (registry : Registry α)
    (s1 : LoaderState α) : Except PyExc (Pipe α) × LoaderState α :=
  match lookupA s1.pipeCache (module_name, steps) with
  | some p => (.ok p, s1)
  | none =>
    match build_pipeline registry steps with
    | .error e => (.error (.pl e), { s1 with buildCount := s1.buildCount + 1 })
    | .ok p =>
      (.ok p, { s1 with pipeCache := ((module_name, steps), p) :: s1.pipeCache,
                        buildCount := s1.buildCount + 1 })

/-- The tail of `init_pipeline` after the module name is resolved: load
the registry (before any cache consultation), then `cacheOrBuild`. -/
def afterResolve (w : World α) (module_name : String) (steps : List String)
    (s : LoaderState α) : Except PyExc (Pipe α) × LoaderState α :=
  match load_plugins w module_name s with
  | (.error e, s1) => (.error (.pl e), s1)
  | (.ok registry, s1) => cacheOrBuild module_name steps registry s1

/-- Source `init_pipeline`: load and validate the configuration,
resolve the module name, then `afterResolve`.  A non-string resolved
module value escapes `importlib` as a foreign (non-`PluginLoaderError`)
exception. -/
def init_pipeline (w : World α) (config_path : String) (s : LoaderState α) :
    Except PyExc (Pipe α) × LoaderState α :=
  match load_config w config_path with
  | .error e => (.error (.pl e), s)
  | .ok config =>
    match stepsResult config with
    | .error e => (.error (.pl e), s)
    | .ok steps =>
      match resolve_module_name w.env (.jobj config) with
      | .jstr module_name => afterResolve w module_name steps s
      | v => (.error (.nonPL ("importlib received a non-string module name: " ++ pyRepr v)), s)

/-- Coherence of a loader state with the ambient world: every cached
registry is what loading its module produces, and every cached pipeline
was built by `build_pipeline` from the registry of its key.  The fresh
state satisfies it, and every state a run of the program reaches does. -/
def GoodState (w : World α) (s : LoaderState α) : Prop :=
  (∀ m reg, (m, reg) ∈ s.regCache → load_plugins_body w m = .ok reg) ∧
  (∀ m steps p, ((m, steps), p) ∈ s.pipeCache →
    ∃ reg, load_plugins_body w m = .ok reg ∧ build_pipeline reg steps = .ok p)

/-- Is a `steps` entry invalid in the sense of `_validate_steps_list`
(not a string, or the empty string)? -/
def badEntry : JVal → Bool
  | .jstr t => t = ""
  | _ => true

/-! Concrete fixtures used by witnesses and counterexamples: a demo
plugin module with trim/uppercase steps, a failing-step registry, and a
world exercising the 32-entry LRU bound of the registry cache. -/

/-- The trim-whitespace plugin of the demo registry. -/
def stripFn (s : String) : String :=
  String.mk (((s.data.dropWhile (fun c => c = ' ')).reverse.dropWhile (fun c => c = ' ')).reverse)

/-- The to-uppercase plugin of the demo registry. -/
def upperFn (s : String) : String := String.mk (s.data.map Char.toUpper)

def demoRegistry : Registry String :=
  [("strip", fun s => .ok (stripFn s)), ("upper", fun s => .ok (upperFn s))]

def demoModule : PyModule String :=
  ⟨some (.rdict [(.kstr "strip", .efn (fun s => .ok (stripFn s))),
                 (.kstr "upper", .efn (fun s => .ok (upperFn s)))]), none⟩

def demoConfig : JVal :=
  .jobj [("module", .jstr "demo"), ("steps", .jarr [.jstr "strip", .jstr "upper"])]

def demoWorld : World String :=
  ⟨none, fun _ => .parsed demoConfig, fun n => if n = "demo" then some demoModule else none⟩

/-- Registry for the execution-failure scenarios: step `b` raises on the
literal input `"boom"`, the neighbouring steps pass values through. -/
def boomRegistry : Registry String :=
  [("a", fun v => .ok v),
   ("b", fun v => if v = "boom" then .error "boom!" else .ok v),
   ("c", fun v => .ok v)]

/-- Registry whose only step always raises, for the error-class
comparison. -/
def failRegistry : Registry Nat := [("a", fun _ => .error "boom")]

/-- One-entry registry used by the missing-step scenarios. -/
def oneRegistry : Registry Nat := [("a", fun x => .ok x)]

/-- World whose configuration names a module that cannot be imported. -/
def ghostWorld : World String :=
  ⟨none,
   fun _ => .parsed (.jobj [("module", .jstr "ghost"), ("steps", .jarr [.jstr "strip"])]),
   fun _ => none⟩

/-- A state that already holds a cached pipeline under the key the
`ghostWorld` configuration resolves to. -/
def ghostState : LoaderState String :=
  ⟨[], [(("ghost", ["strip"]), pipeOf demoRegistry ["strip"])], 0, 0⟩

/-- World whose configuration has an invalid `steps` entry at index 1. -/
def badStepsWorld : World Nat :=
  ⟨none, fun _ => .parsed (.jobj [("steps", .jarr [.jstr "ok", .jint 3])]), fun _ => none⟩

def evictModule : PyModule Unit :=
  ⟨some (.rdict [(.kstr "s", .efn (fun x => .ok x))]), none⟩

/-- World in which every path parses to a config whose `module` is the
path itself and whose single step is `s`; every module imports fine. -/
def evictWorld : World Unit :=
  ⟨none,
   fun p => .parsed (.jobj [("module", .jstr p), ("steps", .jarr [.jstr "s"])]),
   fun _ => some evictModule⟩

/-- Thirty-three distinct module names, one more than the lru capacity
of `load_plugins`. -/
def evictPaths : List String := (List.range 33).map (fun i => "m" ++ toString i)

/-- The state after initialising a pipeline for each of the 33 modules:
the pipeline cache holds all 33 keys but module `m0` has been evicted
from the 32-entry registry cache. -/
def evictState : LoaderState Unit :=
  evictPaths.foldl (fun s p => (init_pipeline evictWorld p s).2) emptyState

set_option maxRecDepth 100000

/-! Helper lemmas. -/

theorem lookupA_mem [DecidableEq κ] {l : List (κ × β)} {k : κ} {v : β}
    (h : lookupA l k = some v) : (k, v) ∈ l := by
  induction l with
  | nil => simp [lookupA] at h
  | cons p t ih =>
    obtain ⟨a, b⟩ := p
    by_cases hk : a = k
    · subst hk
      rw [lookupA, if_pos rfl] at h
      injection h with h
      subst h
      exact List.mem_cons_self _ _
    · rw [lookupA, if_neg hk] at h
      exact List.mem_cons_of_mem _ (ih h)

theorem lruGet_mem [DecidableEq κ] {c : List (κ × β)} {k : κ} {v : β} {c' : List (κ × β)}
    (h : lruGet c k = some (v, c')) : (k, v) ∈ c := by
  unfold lruGet at h
  cases hl : lookupA c k with
  | none => rw [hl] at h; simp at h
  | some w =>
    rw [hl] at h
    injection h with h
    cases h
    exact lookupA_mem hl

theorem lruGet_cons_self [DecidableEq κ] (t : List (κ × β)) (k : κ) (v : β) :
    lruGet ((k, v) :: t) k = some (v, (k, v) :: eraseKey ((k, v) :: t) k) := by
  unfold lruGet
  rw [lookupA, if_pos rfl]

theorem eraseKey_subset [DecidableEq κ] {c : List (κ × β)} {k : κ} {p : κ × β}
    (h : p ∈ eraseKey c k) : p ∈ c :=
  (List.mem_filter.mp h).1

/-! Error-kind lemmas: every error a given function can produce belongs
to the class the source raises there. -/

theorem validateEntriesFrom_err_config {items : List JVal} {i : Nat} {e : PLError}
    (h : validateEntriesFrom items i = .error e) : isConfigError e = true := by
  induction items generalizing i with
  | nil => simp [validateEntriesFrom] at h
  | cons v rest ih =>
    cases v with
    | jstr s =>
      rw [validateEntriesFrom] at h
      by_cases hs : s = ""
      · rw [if_pos hs] at h; injection h with h; subst h; rfl
      · rw [if_neg hs] at h
        cases hr : validateEntriesFrom rest (i + 1) with
        | ok l => rw [hr] at h; simp [Except.map] at h
        | error e' =>
          rw [hr] at h
          simp [Except.map] at h
          subst h
          exact ih hr
    | jnull => simp only [validateEntriesFrom] at h; injection h with h; subst h; rfl
    | jbool b => simp only [validateEntriesFrom] at h; injection h with h; subst h; rfl
    | jint n => simp only [validateEntriesFrom] at h; injection h with h; subst h; rfl
    | jarr xs => simp only [validateEntriesFrom] at h; injection h with h; subst h; rfl
    | jobj fs => simp only [validateEntriesFrom] at h; injection h with h; subst h; rfl

theorem validate_steps_list_err_config {v : JVal} {e : PLError}
    (h : validate_steps_list v = .error e) : isConfigError e = true := by
  cases v with
  | jarr items =>
    rw [validate_steps_list] at h
    by_cases hi : items.isEmpty
    · rw [if_pos hi] at h; injection h with h; subst h; rfl
    · rw [if_neg hi] at h; exact validateEntriesFrom_err_config h
  | jnull => injection h with h; subst h; rfl
  | jbool b => injection h with h; subst h; rfl
  | jint n => injection h with h; subst h; rfl
  | jstr s => injection h with h; subst h; rfl
  | jobj fs => injection h with h; subst h; rfl

theorem stepsResult_err_config {config : List (String × JVal)} {e : PLError}
    (h : stepsResult config = .error e) : isConfigError e = true := by
  unfold stepsResult at h
  cases hl : lookupA config "steps" with
  | none => rw [hl] at h; injection h with h; subst h; rfl
  | some sv => rw [hl] at h; exact validate_steps_list_err_config h

theorem validateRegEntries_err_registry {α : Type} {entries : List (RKey × REntry α)} {e : PLError}
    (h : validateRegEntries entries = .error e) : isRegistryError e = true := by
  induction entries with
  | nil => simp [validateRegEntries] at h
  | cons p rest ih =>
    obtain ⟨k, v⟩ := p
    cases k with
    | kstr s =>
      cases v with
      | efn f =>
        rw [validateRegEntries] at h
        cases hr : validateRegEntries rest with
        | ok l => rw [hr] at h; simp [Except.map] at h
        | error e' =>
          rw [hr] at h
          simp [Except.map] at h
          subst h
          exact ih hr
      | enotCallable r =>
        simp only [validateRegEntries] at h; injection h with h; subst h; rfl
    | kother r =>
      cases v with
      | efn f => simp only [validateRegEntries] at h; injection h with h; subst h; rfl
      | enotCallable r' => simp only [validateRegEntries] at h; injection h with h; subst h; rfl

theorem validate_registry_err_registry {α : Type} {v : RVal α} {e : PLError}
    (h : validate_registry v = .error e) : isRegistryError e = true := by
  cases v with
  | rdict entries => exact validateRegEntries_err_registry h
  | rcallable c => injection h with h; subst h; rfl
  | rother r => injection h with h; subst h; rfl

theorem moduleRegistryValue_err_registry {α : Type} {m : PyModule α} {n : String} {e : PLError}
    (h : moduleRegistryValue m n = .error e) : isRegistryError e = true := by
  unfold moduleRegistryValue at h
  split at h
  · split at h
    · simp at h
    · injection h with h; subst h; rfl
  · simp at h
  · split at h
    · split at h
      · simp at h
      · injection h with h; subst h; rfl
    · injection h with h; subst h; rfl

theorem load_plugins_body_err_registry {α : Type} {w : World α} {n : String} {e : PLError}
    (h : load_plugins_body w n = .error e) : isRegistryError e = true := by
  unfold load_plugins_body at h
  split at h
  · injection h with h; subst h; rfl
  · rename_i m heq
    cases hv : moduleRegistryValue m n with
    | ok v =>
      rw [hv] at h
      simp [Except.bind] at h
      exact validate_registry_err_registry h
    | error e' =>
      rw [hv] at h
      simp [Except.bind] at h
      subst h
      exact moduleRegistryValue_err_registry hv

theorem build_pipeline_err_pipeline {α : Type} {reg : Registry α} {steps : List String} {e : PLError}
    (h : build_pipeline reg steps = .error e) : isPipelineError e = true := by
  unfold build_pipeline at h
  cases hi : invalidNameIdx steps 0 with
  | some i => rw [hi] at h; injection h with h; subst h; rfl
  | none =>
    rw [hi] at h
    simp only at h
    by_cases hm : (steps.filter (fun s => (lookupA reg s).isNone)).isEmpty
    · rw [if_pos hm] at h; simp at h
    · rw [if_neg hm] at h; injection h with h; subst h; rfl

theorem pipelineRun_err_pipeline {α : Type} {names : List String}
    {fns : List (α → Except String α)} {i : Nat} {x : α} {e : PLError}
    (h : pipelineRun names fns i x = .error e) : isPipelineError e = true := by
  induction fns generalizing i x with
  | nil => simp [pipelineRun] at h
  | cons f rest ih =>
    rw [pipelineRun] at h
    cases hf : f x with
    | ok v => rw [hf] at h; exact ih h
    | error exc => rw [hf] at h; injection h with h; subst h; rfl

/-! Success-shape lemmas. -/

theorem validateEntriesFrom_ok_nonempty {items : List JVal} {i : Nat} {steps : List String}
    (h : validateEntriesFrom items i = .ok steps) : ∀ t ∈ steps, t ≠ "" := by
  induction items generalizing i steps with
  | nil =>
    simp only [validateEntriesFrom] at h
    injection h with h
    subst h
    intro t ht
    simp at ht
  | cons v rest ih =>
    cases v with
    | jstr s =>
      rw [validateEntriesFrom] at h
      by_cases hs : s = ""
      · rw [if_pos hs] at h; simp at h
      · rw [if_neg hs] at h
        cases hr : validateEntriesFrom rest (i + 1) with
        | ok l =>
          rw [hr] at h
          simp [Except.map] at h
          subst h
          intro t ht
          rcases List.mem_cons.mp ht with h1 | h1
          · subst h1; exact hs
          · exact ih hr t h1
        | error e' => rw [hr] at h; simp [Except.map] at h
    | jnull => simp only [validateEntriesFrom] at h; simp at h
    | jbool b => simp only [validateEntriesFrom] at h; simp at h
    | jint n => simp only [validateEntriesFrom] at h; simp at h
    | jarr xs => simp only [validateEntriesFrom] at h; simp at h
    | jobj fs => simp only [validateEntriesFrom] at h; simp at h

theorem validate_steps_list_ok_nonempty {v : JVal} {steps : List String}
    (h : validate_steps_list v = .ok steps) : ∀ t ∈ steps, t ≠ "" := by
  cases v with
  | jarr items =>
    rw [validate_steps_list] at h
    by_cases hi : items.isEmpty
    · rw [if_pos hi] at h; simp at h
    · rw [if_neg hi] at h; exact validateEntriesFrom_ok_nonempty h
  | jnull => simp [validate_steps_list] at h
  | jbool b => simp [validate_steps_list] at h
  | jint n => simp [validate_steps_list] at h
  | jstr s => simp [validate_steps_list] at h
  | jobj fs => simp [validate_steps_list] at h

theorem stepsResult_ok_nonempty {config : List (String × JVal)} {steps : List String}
    (h : stepsResult config = .ok steps) : ∀ t ∈ steps, t ≠ "" := by
  unfold stepsResult at h
  cases hl : lookupA config "steps" with
  | none => rw [hl] at h; simp at h
  | some sv => rw [hl] at h; exact validate_steps_list_ok_nonempty h

theorem invalidNameIdx_none {steps : List String} (hne : ∀ t ∈ steps, t ≠ "") (i : Nat) :
    invalidNameIdx steps i = none := by
  induction steps generalizing i with
  | nil => rfl
  | cons s rest ih =>
    rw [invalidNameIdx, if_neg (hne s (List.mem_cons_self _ _))]
    exact ih (fun t ht => hne t (List.mem_cons_of_mem _ ht)) _

theorem build_pipeline_ok {α : Type} {reg : Registry α} {steps : List String}
    (hne : ∀ t ∈ steps, t ≠ "")
    (hall : ∀ t ∈ steps, (lookupA reg t).isSome = true) :
    build_pipeline reg steps = .ok (pipeOf reg steps) := by
  unfold build_pipeline
  rw [invalidNameIdx_none hne]
  have hmiss : steps.filter (fun s => (lookupA reg s).isNone) = [] := by
    rw [List.filter_eq_nil_iff]
    intro t ht
    simp [Option.isNone_iff_eq_none]
    exact Option.isSome_iff_exists.mp (hall t ht) |>.elim (fun v hv => by simp [hv])
  simp only [hmiss]
  rfl

theorem build_pipeline_ok_shape {α : Type} {reg : Registry α} {steps : List String} {p : Pipe α}
    (h : build_pipeline reg steps = .ok p) : p = pipeOf reg steps := by
  unfold build_pipeline at h
  split at h
  · simp at h
  · simp only at h
    split at h
    · injection h with h; exact h.symm
    · simp at h

/-! Execution lemmas: the pipeline loop versus plain left-to-right
composition. -/

theorem pipelineRun_ok_iff {α : Type} {names : List String}
    {fns : List (α → Except String α)} {i : Nat} {x : α} {y : α} :
    pipelineRun names fns i x = .ok y ↔ composeLtr fns x = .ok y := by
  induction fns generalizing i x with
  | nil => simp [pipelineRun, composeLtr]
  | cons f rest ih =>
    rw [pipelineRun, composeLtr]
    cases hf : f x with
    | ok v => exact ih
    | error exc => simp

theorem pipelineRun_fails_at {α : Type} (names : List String) :
    ∀ (k : Nat) (fns : List (α → Except String α)) (j : Nat) (x v : α)
      (f : α → Except String α) (exc : String),
      composeLtr (fns.take k) x = .ok v → fns[k]? = some f → f v = .error exc →
      pipelineRun names fns j x =
        .error (.pipelineError (execMsg (names.getD (j + k) "") exc) (some exc)) := by
  intro k
  induction k with
  | zero =>
    intro fns j x v f exc hpre hf hfail
    cases fns with
    | nil => simp at hf
    | cons g rest =>
      simp at hf
      subst hf
      rw [List.take_zero, composeLtr] at hpre
      injection hpre with hpre
      subst hpre
      rw [pipelineRun, hfail]
      simp
  | succ k ih =>
    intro fns j x v f exc hpre hf hfail
    cases fns with
    | nil => simp at hf
    | cons g rest =>
      rw [List.take_succ_cons, composeLtr] at hpre
      cases hg : g x with
      | ok w =>
        rw [hg] at hpre
        rw [pipelineRun, hg]
        have := ih rest (j + 1) w v f exc hpre (by simpa using hf) hfail
        rw [show j + 1 + k = j + (k + 1) by omega] at this
        exact this
      | error exc' => rw [hg] at hpre; simp at hpre

/-! Cache-layer lemmas. -/

theorem load_plugins_spec {α : Type} {w : World α} {m : String} {s : LoaderState α}
    {reg : Registry α}
    (hgood : ∀ m' reg', (m', reg') ∈ s.regCache → load_plugins_body w m' = .ok reg')
    (hbody : load_plugins_body w m = .ok reg) :
    ∃ s1, load_plugins w m s = (.ok reg, s1) ∧ s1.pipeCache = s.pipeCache ∧
      s1.buildCount = s.buildCount := by
  unfold load_plugins
  cases hl : lruGet s.regCache m with
  | none =>
    rw [hbody]
    exact ⟨_, rfl, rfl, rfl⟩
  | some p =>
    obtain ⟨reg', c⟩ := p
    have hmem := lruGet_mem hl
    have := hgood m reg' hmem
    rw [hbody] at this
    injection this with this
    subst this
    exact ⟨_, rfl, rfl, rfl⟩

theorem load_plugins_ok_regCache_head {α : Type} {w : World α} {m : String}
    {s s1 : LoaderState α} {reg : Registry α}
    (h : load_plugins w m s = (.ok reg, s1)) :
    ∃ t, s1.regCache = (m, reg) :: t := by
  unfold load_plugins at h
  cases hl : lruGet s.regCache m with
  | none =>
    rw [hl] at h
    cases hb : load_plugins_body w m with
    | ok reg' =>
      rw [hb] at h
      injection h with h1 h2
      injection h1 with h1
      subst h1
      subst h2
      exact ⟨_, rfl⟩
    | error e => rw [hb] at h; simp at h
  | some p =>
    obtain ⟨reg', c⟩ := p
    rw [hl] at h
    injection h with h1 h2
    injection h1 with h1
    subst h1
    unfold lruGet at hl
    cases hk : lookupA s.regCache m with
    | none => rw [hk] at hl; simp at hl
    | some v =>
      simp only [hk] at hl
      obtain ⟨hl1, hl2⟩ := Prod.mk.injEq .. ▸ Option.some.injEq .. ▸ hl
      subst hl1
      rw [← h2]
      exact ⟨eraseKey s.regCache m, hl2.symm⟩

theorem load_plugins_preserves_counts {α : Type} {w : World α} {m : String}
    {s s1 : LoaderState α} {r : Except PLError (Registry α)}
    (h : load_plugins w m s = (r, s1)) :
    s1.pipeCache = s.pipeCache ∧ s1.buildCount = s.buildCount := by
  unfold load_plugins at h
  cases hl : lruGet s.regCache m with
  | none =>
    rw [hl] at h
    cases hb : load_plugins_body w m with
    | ok reg' => rw [hb] at h; injection h with h1 h2; subst h2; exact ⟨rfl, rfl⟩
    | error e => rw [hb] at h; injection h with h1 h2; subst h2; exact ⟨rfl, rfl⟩
  | some p =>
    obtain ⟨reg', c⟩ := p
    rw [hl] at h
    injection h with h1 h2
    subst h2
    exact ⟨rfl, rfl⟩

theorem cacheOrBuild_hit {α : Type} {m : String} {steps : List String}
    {registry : Registry α} {s1 : LoaderState α} {P : Pipe α}
    (hpipe : lookupA s1.pipeCache (m, steps) = some P) :
    cacheOrBuild m steps registry s1 = (.ok P, s1) := by
  unfold cacheOrBuild
  rw [hpipe]

theorem cacheOrBuild_ok_cached {α : Type} {m : String} {steps : List String}
    {registry : Registry α} {s1 : LoaderState α} {P : Pipe α}
    (h : (cacheOrBuild m steps registry s1).1 = .ok P) :
    lookupA (cacheOrBuild m steps registry s1).2.pipeCache (m, steps) = some P ∧
      (cacheOrBuild m steps registry s1).2.regCache = s1.regCache := by
  unfold cacheOrBuild at h ⊢
  cases hp : lookupA s1.pipeCache (m, steps) with
  | some p =>
    rw [hp] at h
    have h2 : (Except.ok p : Except PyExc (Pipe α)) = Except.ok P := h
    injection h2 with h2
    subst h2
    exact ⟨hp, rfl⟩
  | none =>
    rw [hp] at h
    cases hb : build_pipeline registry steps with
    | error e =>
      rw [hb] at h
      exact absurd
        (show (Except.error (PyExc.pl e) : Except PyExc (Pipe α)) = Except.ok P from h)
        (by simp)
    | ok p =>
      rw [hb] at h
      have h2 : (Except.ok p : Except PyExc (Pipe α)) = Except.ok P := h
      injection h2 with h2
      subst h2
      constructor
      · show lookupA (((m, steps), p) :: s1.pipeCache) (m, steps) = some p
        rw [lookupA, if_pos rfl]
      · rfl

theorem afterResolve_cache_hit {α : Type} {w : World α} {m : String} {steps : List String}
    {s : LoaderState α} {reg : Registry α} {c' : List (String × Registry α)} {P : Pipe α}
    (hreg : lruGet s.regCache m = some (reg, c'))
    (hpipe : lookupA s.pipeCache (m, steps) = some P) :
    afterResolve w m steps s = (.ok P, { s with regCache := c' }) := by
  unfold afterResolve load_plugins
  rw [hreg]
  show cacheOrBuild m steps reg { s with regCache := c' } = (.ok P, { s with regCache := c' })
  exact cacheOrBuild_hit hpipe

theorem afterResolve_ok_cached {α : Type} {w : World α} {m : String} {steps : List String}
    {s : LoaderState α} {P : Pipe α}
    (h : (afterResolve w m steps s).1 = .ok P) :
    lookupA (afterResolve w m steps s).2.pipeCache (m, steps) = some P ∧
      ∃ reg t, (afterResolve w m steps s).2.regCache = (m, reg) :: t := by
  cases hlp : load_plugins w m s with
  | mk r s1 =>
    have heq : afterResolve w m steps s =
        (match r with
         | .error e => (.error (.pl e), s1)
         | .ok registry => cacheOrBuild m steps registry s1) := by
      unfold afterResolve
      simp only [hlp]
      cases r <;> rfl
    rw [heq] at h ⊢
    cases r with
    | error e =>
      exact absurd
        (show (Except.error (PyExc.pl e) : Except PyExc (Pipe α)) = Except.ok P from h)
        (by simp)
    | ok reg =>
      obtain ⟨t, ht⟩ := load_plugins_ok_regCache_head hlp
      obtain ⟨h1, h2⟩ := cacheOrBuild_ok_cached h
      refine ⟨h1, reg, t, ?_⟩
      show (cacheOrBuild m steps reg s1).2.regCache = (m, reg) :: t
      rw [h2, ht]

theorem afterResolve_ok {α : Type} {w : World α} {m : String} {steps : List String}
    {s : LoaderState α} {reg : Registry α} {P : Pipe α}
    (hgood : GoodState w s)
    (hbody : load_plugins_body w m = .ok reg)
    (hbuild : build_pipeline reg steps = .ok P) :
    (afterResolve w m steps s).1 = .ok P := by
  obtain ⟨s1, hlp, hpc, _⟩ := load_plugins_spec hgood.1 hbody
  have heq : afterResolve w m steps s = cacheOrBuild m steps reg s1 := by
    unfold afterResolve
    simp only [hlp]
  rw [heq]
  unfold cacheOrBuild
  cases hp : lookupA s1.pipeCache (m, steps) with
  | some p =>
    rw [hpc] at hp
    obtain ⟨reg2, hb2, hbuild2⟩ := hgood.2 m steps p (lookupA_mem hp)
    rw [hbody] at hb2
    injection hb2 with hb2
    subst hb2
    rw [hbuild] at hbuild2
    injection hbuild2 with hbuild2
    subst hbuild2
    rfl
  | none =>
    rw [hbuild]



theorem init_resolved {α : Type} {w : World α} {path : String} {s : LoaderState α}
    {config : List (String × JVal)} {steps : List String} {m : String}
    (hload : load_config w path = .ok config)
    (hsteps : stepsResult config = .ok steps)
    (hmod : resolve_module_name w.env (.jobj config) = .jstr m) :
    init_pipeline w path s = afterResolve w m steps s := by
  unfold init_pipeline
  simp only [hload]
  simp only [hsteps]
  simp only [hmod]

theorem init_config_error {α : Type} {w : World α} {path : String} {s : LoaderState α}
    {config : List (String × JVal)} {e : PLError}
    (hload : load_config w path = .ok config)
    (hsteps : stepsResult config = .error e) :
    init_pipeline w path s = (.error (.pl e), s) := by
  unfold init_pipeline
  simp only [hload]
  simp only [hsteps]

theorem validateEntriesFrom_bad_entry :
    ∀ (items : List JVal) (i0 i : Nat) (v : JVal),
      (∀ j, j < i → ∃ t, items[j]? = some (.jstr t) ∧ t ≠ "") →
      items[i]? = some v → badEntry v = true →
      validateEntriesFrom items i0 = .error (.configError (invalidEntryMsg (i0 + i) v)) := by
  intro items
  induction items with
  | nil => intro i0 i v _ hv _; simp at hv
  | cons u rest ih =>
    intro i0 i v hpre hv hbad
    cases i with
    | zero =>
      simp at hv
      subst hv
      cases u with
      | jstr t =>
        have ht : t = "" := by simpa [badEntry] using hbad
        subst ht
        rw [validateEntriesFrom, if_pos rfl, Nat.add_zero]
      | jnull =>
        rw [validateEntriesFrom, Nat.add_zero]
        intro t hs
        exact JVal.noConfusion hs
      | jbool b =>
        rw [validateEntriesFrom, Nat.add_zero]
        intro t hs
        exact JVal.noConfusion hs
      | jint n =>
        rw [validateEntriesFrom, Nat.add_zero]
        intro t hs
        exact JVal.noConfusion hs
      | jarr xs =>
        rw [validateEntriesFrom, Nat.add_zero]
        intro t hs
        exact JVal.noConfusion hs
      | jobj fs =>
        rw [validateEntriesFrom, Nat.add_zero]
        intro t hs
        exact JVal.noConfusion hs
    | succ i' =>
      obtain ⟨t, hu, htne⟩ := hpre 0 (Nat.succ_pos _)
      simp at hu
      subst hu
      rw [validateEntriesFrom, if_neg htne]
      have hrest := ih (i0 + 1) i' v
        (fun j hj => by simpa using hpre (j + 1) (by omega)) (by simpa using hv) hbad
      rw [hrest]
      rw [show i0 + 1 + i' = i0 + (i' + 1) by omega]
      rfl

theorem validate_steps_bad_entry {items : List JVal} {i : Nat} {v : JVal}
    (hpre : ∀ j, j < i → ∃ t, items[j]? = some (.jstr t) ∧ t ≠ "")
    (hv : items[i]? = some v) (hbad : badEntry v = true) :
    validate_steps_list (.jarr items) = .error (.configError (invalidEntryMsg i v)) := by
  have hne : items ≠ [] := by
    intro h
    subst h
    simp at hv
  rw [validate_steps_list, if_neg (by simpa [List.isEmpty_iff] using hne)]
  have := validateEntriesFrom_bad_entry items 0 i v hpre hv hbad
  rwa [Nat.zero_add] at this

/-! Claim theorems. -/

/-- C7: for every configuration whose `steps` key is absent, not a list,
empty, or holds a non-string or empty-string entry, `init_pipeline`
fails with a `ConfigError` and performs no registry access — the state
(both caches, both work counters) is returned untouched, so the registry
loader was never consulted.  For a bad entry, the error message names
the offending index. -/
theorem config_error_before_registry :
    (∀ (α : Type) (w : World α) (path : String) (s : LoaderState α)
       (config : List (String × JVal)) (e : PLError),
       load_config w path = .ok config → stepsResult config = .error e →
       init_pipeline w path s = (.error (.pl e), s) ∧ isConfigError e = true) ∧
    (∀ (items : List JVal) (i : Nat) (v : JVal),
       (∀ j, j < i → ∃ t, items[j]? = some (.jstr t) ∧ t ≠ "") →
       items[i]? = some v → badEntry v = true →
       validate_steps_list (.jarr items) = .error (.configError (invalidEntryMsg i v))) := by
  constructor
  · intro α w path s config e hload hsteps
    exact ⟨init_config_error hload hsteps, stepsResult_err_config hsteps⟩
  · intro items i v hpre hv hbad
    exact validate_steps_bad_entry hpre hv hbad

/-- Witness for C7 at the concrete world whose config document is
`\x7b"steps": ["ok", 3]\x7d`: the call fails with the ConfigError naming
index 1, the state is untouched, and the validator produces exactly that
message. -/
theorem config_error_before_registry_witness :
    init_pipeline badStepsWorld "cfg.json" (emptyState (α := Nat)) =
      (.error (.pl (.configError (invalidEntryMsg 1 (.jint 3)))), emptyState) ∧
    isConfigError (.configError (invalidEntryMsg 1 (.jint 3))) = true ∧
    validate_steps_list (.jarr [.jstr "ok", .jint 3]) =
      .error (.configError (invalidEntryMsg 1 (.jint 3))) := by
  refine ⟨(config_error_before_registry.1 Nat badStepsWorld "cfg.json" emptyState
      [("steps", .jarr [.jstr "ok", .jint 3])] _ rfl rfl).1,
    (config_error_before_registry.1 Nat badStepsWorld "cfg.json" emptyState
      [("steps", .jarr [.jstr "ok", .jint 3])] _ rfl rfl).2,
    config_error_before_registry.2 [.jstr "ok", .jint 3] 1 (.jint 3) ?_ rfl rfl⟩
  intro j hj
  cases j with
  | zero => exact ⟨"ok", rfl, by decide⟩
  | succ n => omega

/-- C8: `resolve_module_name` is total and pure, and resolves with the
priority the spec states: a non-empty environment override wins
unconditionally; otherwise a truthy `module` config value is used;
otherwise the default `plugins`. -/
theorem resolve_module_name_priority :
    (∀ (e : String) (config : JVal), e ≠ "" → resolve_module_name (some e) config = .jstr e) ∧
    (∀ (env : Option String) (fields : List (String × JVal)) (v : JVal),
      (env = none ∨ env = some "") → lookupA fields "module" = some v → truthy v = true →
      resolve_module_name env (.jobj fields) = v) ∧
    (∀ (env : Option String) (fields : List (String × JVal)),
      (env = none ∨ env = some "") → lookupA fields "module" = none →
      resolve_module_name env (.jobj fields) = .jstr "plugins") := by
  refine ⟨?_, ?_, ?_⟩
  · intro e config he
    simp [resolve_module_name, envTruthy, he]
  · intro env fields v henv hlook htr
    rcases henv with h | h <;> subst h <;>
      simp [resolve_module_name, envTruthy, hlook, htr]
  · intro env fields henv hlook
    rcases henv with h | h <;> subst h <;>
      simp [resolve_module_name, envTruthy, hlook]

/-- Witness for C8: the override wins over a present module key, the
module key wins when no override is set, and the default appears when
neither is usable. -/
theorem resolve_module_name_priority_witness :
    resolve_module_name (some "other") (.jobj [("module", .jstr "demo")]) = .jstr "other" ∧
    resolve_module_name none (.jobj [("module", .jstr "demo")]) = .jstr "demo" ∧
    resolve_module_name (some "") (.jobj []) = .jstr "plugins" :=
  ⟨resolve_module_name_priority.1 "other" _ (by decide),
   resolve_module_name_priority.2.1 none _ _ (Or.inl rfl) rfl (by decide),
   resolve_module_name_priority.2.2 (some "") [] (Or.inr rfl) rfl⟩

/-- C10: with the environment override unset or empty, a `module` config
value that is present but falsy (empty string, zero, false, empty
containers, null) is replaced by the default `plugins`, exactly as an
absent key would be. -/
theorem falsy_module_defaults_plugins :
    ∀ (env : Option String) (fields : List (String × JVal)) (v : JVal),
      (env = none ∨ env = some "") → lookupA fields "module" = some v → truthy v = false →
      resolve_module_name env (.jobj fields) = .jstr "plugins" := by
  intro env fields v henv hlook htr
  rcases henv with h | h <;> subst h <;>
    simp [resolve_module_name, envTruthy, hlook, htr]

/-- Witness for C10 at the config `\x7b"module": ""\x7d`. -/
theorem falsy_module_defaults_plugins_witness :
    resolve_module_name none (.jobj [("module", .jstr "")]) = .jstr "plugins" :=
  falsy_module_defaults_plugins none [("module", .jstr "")] (.jstr "")
    (Or.inl rfl) rfl (by decide)

/-- C9: when loading the registry of the resolved namespace fails (the
module is not in the lru cache and its load raises), `init_pipeline`
raises that `RegistryError` even though a pipeline for the identical
`(namespace, steps)` key is already sitting in the pipeline cache:
registry loading runs before the pipeline-cache lookup. -/
theorem registry_failure_beats_cache {α : Type} {w : World α} {path : String}
    {s : LoaderState α} {config : List (String × JVal)} {steps : List String}
    {m : String} {e : PLError}
    (hload : load_config w path = .ok config)
    (hsteps : stepsResult config = .ok steps)
    (hmod : resolve_module_name w.env (.jobj config) = .jstr m)
    (hmiss : lruGet s.regCache m = none)
    (hfail : load_plugins_body w m = .error e)
    (hcached : (lookupA s.pipeCache (m, steps)).isSome = true) :
    (init_pipeline w path s).1 = .error (.pl e) ∧ isRegistryError e = true := by
  rw [init_resolved hload hsteps hmod]
  unfold afterResolve load_plugins
  rw [hmiss, hfail]
  exact ⟨rfl, load_plugins_body_err_registry hfail⟩

/-- Witness for C9: `ghostWorld` resolves to module `ghost`, which is
not importable, while `ghostState` already caches a pipeline under the
key `(ghost, [strip])`; the call still fails with the RegistryError. -/
theorem registry_failure_beats_cache_witness :
    (init_pipeline ghostWorld "cfg.json" ghostState).1 =
      .error (.pl (.registryError ("Plugin module not found: " ++ "ghost"))) ∧
    isRegistryError (.registryError ("Plugin module not found: " ++ "ghost")) = true :=
  @registry_failure_beats_cache String ghostWorld "cfg.json" ghostState
    [("module", .jstr "ghost"), ("steps", .jarr [.jstr "strip"])] ["strip"] "ghost"
    (.registryError ("Plugin module not found: " ++ "ghost"))
    rfl rfl rfl rfl rfl rfl

/-- C1: for every coherent state and valid configuration whose step
names are all keys of the resolved registry, `init_pipeline` succeeds
with the pipeline binding those steps, and applying it to any input
returns a value exactly when the left-to-right composition of the bound
callables does, with the same value. -/
theorem init_pipeline_builds_composition {α : Type} {w : World α} {path : String}
    {s : LoaderState α} {config : List (String × JVal)} {steps : List String}
    {m : String} {reg : Registry α}
    (hgood : GoodState w s)
    (hload : load_config w path = .ok config)
    (hsteps : stepsResult config = .ok steps)
    (hmod : resolve_module_name w.env (.jobj config) = .jstr m)
    (hbody : load_plugins_body w m = .ok reg)
    (hall : ∀ t ∈ steps, (lookupA reg t).isSome = true) :
    (init_pipeline w path s).1 = .ok (pipeOf reg steps) ∧
    ∀ x y, (applyPipe (pipeOf reg steps) x = .ok y ↔
      composeLtr (steps.map (resolveFn reg)) x = .ok y) := by
  have hne := stepsResult_ok_nonempty hsteps
  have hbuild := build_pipeline_ok hne hall
  constructor
  · rw [init_resolved hload hsteps hmod]
    exact afterResolve_ok hgood hbody hbuild
  · intro x y
    exact pipelineRun_ok_iff

/-- Witness for C1: the end-to-end demo, a fresh state and the config
`\x7b"module": "demo", "steps": ["strip", "upper"]\x7d` against the
trim/uppercase registry; the built pipeline maps
`"  hello world  "` to `"HELLO WORLD"`. -/
theorem init_pipeline_builds_composition_witness :
    (init_pipeline demoWorld "cfg.json" emptyState).1 =
      .ok (pipeOf demoRegistry ["strip", "upper"]) ∧
    applyPipe (pipeOf demoRegistry ["strip", "upper"]) "  hello world  " =
      .ok "HELLO WORLD" := by
  have h := @init_pipeline_builds_composition String demoWorld "cfg.json" emptyState
    [("module", .jstr "demo"), ("steps", .jarr [.jstr "strip", .jstr "upper"])]
    ["strip", "upper"] "demo" demoRegistry
    ⟨fun m reg hm => absurd hm (List.not_mem_nil _),
     fun m st p hm => absurd hm (List.not_mem_nil _)⟩
    rfl rfl rfl rfl (by decide)
  exact ⟨h.1, (h.2 "  hello world  " "HELLO WORLD").mpr rfl⟩

/-- Counterexample to C2 as stated: the execution error carries the
failing step name and the cause, but not its position.  The same step
`b` of `boomRegistry` failing at index 0 (pipeline `[b]`) and at index 1
(pipeline `[a, b]`) produces the identical `PipelineError` value, so no
reading of the error can recover the position. -/
theorem exec_error_omits_position :
    build_pipeline boomRegistry ["b"] = .ok (pipeOf boomRegistry ["b"]) ∧
    build_pipeline boomRegistry ["a", "b"] = .ok (pipeOf boomRegistry ["a", "b"]) ∧
    applyPipe (pipeOf boomRegistry ["b"]) "boom" =
      .error (.pipelineError (execMsg "b" "boom!") (some "boom!")) ∧
    applyPipe (pipeOf boomRegistry ["a", "b"]) "boom" =
      .error (.pipelineError (execMsg "b" "boom!") (some "boom!")) :=
  ⟨rfl, rfl, rfl, rfl⟩

/-- C2 amended: when a bound callable of a built pipeline raises, the
composed function fails with a `PipelineError` whose message names the
failing step (not its position) and whose cause is the underlying
exception, and no callable after the failing one affects the outcome:
any list agreeing on the first `idx + 1` callables produces the very
same error. -/
theorem exec_failure_wraps_and_stops {α : Type} {reg : Registry α} {steps : List String}
    {p : Pipe α} {idx : Nat} {x v : α} {f : α → Except String α} {exc : String}
    {stepName : String}
    (hb : build_pipeline reg steps = .ok p)
    (hpre : composeLtr (p.fns.take idx) x = .ok v)
    (hf : p.fns[idx]? = some f)
    (hfail : f v = .error exc)
    (hname : p.names[idx]? = some stepName) :
    applyPipe p x = .error (.pipelineError (execMsg stepName exc) (some exc)) ∧
    ∀ fns2, fns2.take (idx + 1) = p.fns.take (idx + 1) →
      pipelineRun p.names fns2 0 x =
        .error (.pipelineError (execMsg stepName exc) (some exc)) := by
  have hget : p.names.getD idx "" = stepName := by
    rw [List.getD_eq_getElem?_getD, hname]
    rfl
  constructor
  · have := pipelineRun_fails_at p.names idx p.fns 0 x v f exc hpre hf hfail
    rwa [Nat.zero_add, hget] at this
  · intro fns2 h2
    have htake : fns2.take idx = p.fns.take idx := by
      have e1 : fns2.take idx = (fns2.take (idx + 1)).take idx := by
        rw [List.take_take]
        congr 1
        omega
      have e2 : p.fns.take idx = (p.fns.take (idx + 1)).take idx := by
        rw [List.take_take]
        congr 1
        omega
      rw [e1, h2, ← e2]
    have hidx : fns2[idx]? = some f := by
      have e1 : (fns2.take (idx + 1))[idx]? = fns2[idx]? :=
        List.getElem?_take_of_lt (by omega)
      have e2 : (p.fns.take (idx + 1))[idx]? = p.fns[idx]? :=
        List.getElem?_take_of_lt (by omega)
      rw [← e1, h2, e2, hf]
    have := pipelineRun_fails_at p.names idx fns2 0 x v f exc (htake ▸ hpre) hidx hfail
    rwa [Nat.zero_add, hget] at this

/-- Witness for C2 amended, the a/b/c boom scenario of the spec: step
`b` at index 1 raises on input `"boom"` and the pipeline fails with the
error naming `b` and wrapping `boom!`; replacing everything after `b`
(here, dropping `c`) leaves the outcome untouched. -/
theorem exec_failure_wraps_and_stops_witness :
    applyPipe (pipeOf boomRegistry ["a", "b", "c"]) "boom" =
      .error (.pipelineError (execMsg "b" "boom!") (some "boom!")) ∧
    pipelineRun (pipeOf boomRegistry ["a", "b", "c"]).names
        ((pipeOf boomRegistry ["a", "b", "c"]).fns.take 2) 0 "boom" =
      .error (.pipelineError (execMsg "b" "boom!") (some "boom!")) := by
  have h := @exec_failure_wraps_and_stops String boomRegistry ["a", "b", "c"]
    (pipeOf boomRegistry ["a", "b", "c"]) 1 "boom" "boom"
    (resolveFn boomRegistry "b") "boom!" "b"
    rfl rfl rfl rfl rfl
  exact ⟨h.1, h.2 ((pipeOf boomRegistry ["a", "b", "c"]).fns.take 2)
    (by rw [List.take_take]; norm_num)⟩

/-- C3: when a call to `init_pipeline` succeeds and a second call is
made whose configuration resolves to the same `(module, steps)` key, the
second call returns the very pipeline stored in the cache and performs
neither a rebuild nor an import: both work counters are unchanged. -/
theorem init_pipeline_caches_by_key {α : Type} {w : World α} {p1 p2 : String}
    {s : LoaderState α} {c1 c2 : List (String × JVal)} {steps : List String}
    {m : String} {P : Pipe α}
    (h11 : load_config w p1 = .ok c1)
    (h12 : stepsResult c1 = .ok steps)
    (h13 : resolve_module_name w.env (.jobj c1) = .jstr m)
    (h21 : load_config w p2 = .ok c2)
    (h22 : stepsResult c2 = .ok steps)
    (h23 : resolve_module_name w.env (.jobj c2) = .jstr m)
    (hOk : (init_pipeline w p1 s).1 = .ok P) :
    (init_pipeline w p2 (init_pipeline w p1 s).2).1 = .ok P ∧
    (init_pipeline w p2 (init_pipeline w p1 s).2).2.buildCount =
      (init_pipeline w p1 s).2.buildCount ∧
    (init_pipeline w p2 (init_pipeline w p1 s).2).2.importCount =
      (init_pipeline w p1 s).2.importCount := by
  rw [init_resolved h11 h12 h13] at hOk ⊢
  obtain ⟨hpc, reg, t, ht⟩ := afterResolve_ok_cached hOk
  rw [init_resolved h21 h22 h23]
  have hhit : lruGet (afterResolve w m steps s).2.regCache m =
      some (reg, (m, reg) :: eraseKey ((m, reg) :: t) m) := by
    rw [ht]
    exact lruGet_cons_self t m reg
  rw [afterResolve_cache_hit hhit hpc]
  exact ⟨rfl, rfl, rfl⟩

/-- Witness for C3: calling `init_pipeline` twice on the demo config
from a fresh state returns the identical pipeline value and leaves the
build counter at its value after the first call. -/
theorem init_pipeline_caches_by_key_witness :
    (init_pipeline demoWorld "cfg.json"
        (init_pipeline demoWorld "cfg.json" emptyState).2).1 =
      .ok (pipeOf demoRegistry ["strip", "upper"]) ∧
    (init_pipeline demoWorld "cfg.json"
        (init_pipeline demoWorld "cfg.json" emptyState).2).2.buildCount =
      (init_pipeline demoWorld "cfg.json" emptyState).2.buildCount ∧
    (init_pipeline demoWorld "cfg.json"
        (init_pipeline demoWorld "cfg.json" emptyState).2).2.importCount =
      (init_pipeline demoWorld "cfg.json" emptyState).2.importCount :=
  @init_pipeline_caches_by_key String demoWorld "cfg.json" "cfg.json" emptyState
    [("module", .jstr "demo"), ("steps", .jarr [.jstr "strip", .jstr "upper"])]
    [("module", .jstr "demo"), ("steps", .jarr [.jstr "strip", .jstr "upper"])]
    ["strip", "upper"] "demo" (pipeOf demoRegistry ["strip", "upper"])
    rfl rfl rfl rfl rfl rfl rfl

/-- Counterexample to C4 as stated: a pipeline-cache key hit does not by
itself prevent registry loading.  After initialising 33 distinct modules
the first one is evicted from the 32-entry lru registry cache while its
pipeline is still cached; re-initialising it hits the pipeline cache and
returns a pipeline, yet performs one more import, because registry
loading runs before the pipeline-cache lookup. -/
theorem cache_hit_still_reloads_registry :
    (lookupA evictState.pipeCache ("m0", ["s"])).isSome = true ∧
    (lookupA evictState.regCache "m0").isSome = false ∧
    (init_pipeline evictWorld "m0" evictState).1.toOption.isSome = true ∧
    (init_pipeline evictWorld "m0" evictState).2.importCount =
      evictState.importCount + 1 ∧
    (init_pipeline evictWorld "m0" evictState).2.buildCount = evictState.buildCount :=
  ⟨rfl, rfl, rfl, rfl, rfl⟩

/-- C4 amended: on a pipeline-cache key hit, `init_pipeline` returns the
previously built pipeline without invoking the builder, and it skips the
registry-loading work exactly when the namespace is still in the
32-entry lru registry cache (after an eviction the import re-runs even
on a hit); the configuration document load and step-list validation
still run on every call — a call whose config fails validation errors
out regardless of what the caches hold. -/
theorem cache_hit_skips_build :
    (∀ (α : Type) (w : World α) (path : String) (s : LoaderState α)
       (config : List (String × JVal)) (steps : List String) (m : String)
       (reg : Registry α) (c' : List (String × Registry α)) (P : Pipe α),
       load_config w path = .ok config → stepsResult config = .ok steps →
       resolve_module_name w.env (.jobj config) = .jstr m →
       lruGet s.regCache m = some (reg, c') →
       lookupA s.pipeCache (m, steps) = some P →
       (init_pipeline w path s).1 = .ok P ∧
         (init_pipeline w path s).2.pipeCache = s.pipeCache ∧
         (init_pipeline w path s).2.buildCount = s.buildCount ∧
         (init_pipeline w path s).2.importCount = s.importCount) ∧
    (∀ (α : Type) (w : World α) (path : String) (s : LoaderState α)
       (config : List (String × JVal)) (e : PLError),
       load_config w path = .ok config → stepsResult config = .error e →
       init_pipeline w path s = (.error (.pl e), s)) := by
  constructor
  · intro α w path s config steps m reg c' P hload hsteps hmod hreg hpipe
    rw [init_resolved hload hsteps hmod, afterResolve_cache_hit hreg hpipe]
    exact ⟨rfl, rfl, rfl, rfl⟩
  · intro α w path s config e hload hsteps
    exact init_config_error hload hsteps

/-- Witness for C4 amended: a second demo call is a pipeline-cache hit
with the module still lru-cached — same pipeline back, no counter moves;
and the bad-steps config still fails validation on a call with a warm
cache. -/
theorem cache_hit_skips_build_witness :
    ((init_pipeline demoWorld "cfg.json"
        (init_pipeline demoWorld "cfg.json" emptyState).2).1 =
      .ok (pipeOf demoRegistry ["strip", "upper"]) ∧
    (init_pipeline demoWorld "cfg.json"
        (init_pipeline demoWorld "cfg.json" emptyState).2).2.pipeCache =
      (init_pipeline demoWorld "cfg.json" emptyState).2.pipeCache ∧
    (init_pipeline demoWorld "cfg.json"
        (init_pipeline demoWorld "cfg.json" emptyState).2).2.buildCount =
      (init_pipeline demoWorld "cfg.json" emptyState).2.buildCount ∧
    (init_pipeline demoWorld "cfg.json"
        (init_pipeline demoWorld "cfg.json" emptyState).2).2.importCount =
      (init_pipeline demoWorld "cfg.json" emptyState).2.importCount) ∧
    init_pipeline badStepsWorld "cfg.json" (emptyState (α := Nat)) =
      (.error (.pl (.configError (invalidEntryMsg 1 (.jint 3)))), emptyState) :=
  ⟨cache_hit_skips_build.1 String demoWorld "cfg.json"
      (init_pipeline demoWorld "cfg.json" emptyState).2
      [("module", .jstr "demo"), ("steps", .jarr [.jstr "strip", .jstr "upper"])]
      ["strip", "upper"] "demo" demoRegistry [("demo", demoRegistry)]
      (pipeOf demoRegistry ["strip", "upper"]) rfl rfl rfl rfl rfl,
   cache_hit_skips_build.2 Nat badStepsWorld "cfg.json" emptyState
      [("steps", .jarr [.jstr "ok", .jint 3])] _ rfl rfl⟩

/-- Counterexample to C5 as stated: the source defines three error
kinds below the base, not four — a construction failure (unknown step)
and an execution failure (raising callable) are both `PipelineError` and
land in the same dynamic class, so a caller cannot branch between
them. -/
theorem construction_execution_same_class :
    build_pipeline oneRegistry ["zz"] =
      .error (.pipelineError (unknownStepsMsg ["zz"] ["a"]) none) ∧
    applyPipe (pipeOf failRegistry ["a"]) 0 =
      .error (.pipelineError (execMsg "a" "boom") (some "boom")) ∧
    errClass (.pipelineError (unknownStepsMsg ["zz"] ["a"]) none) =
      errClass (.pipelineError (execMsg "a" "boom") (some "boom")) :=
  ⟨rfl, rfl, rfl⟩

/-- C5 amended: the taxonomy has three disjoint kinds under one base —
every `PluginLoaderError` is exactly one of `ConfigError`,
`RegistryError`, `PipelineError` — and both construction failures of
`build_pipeline` and execution failures of a running pipeline raise the
same `PipelineError` kind. -/
theorem error_taxonomy_three_kinds :
    (∀ e : PLError,
      isConfigError e = true ∨ isRegistryError e = true ∨ isPipelineError e = true) ∧
    (∀ e : PLError, ¬(isConfigError e = true ∧ isRegistryError e = true)) ∧
    (∀ e : PLError, ¬(isConfigError e = true ∧ isPipelineError e = true)) ∧
    (∀ e : PLError, ¬(isRegistryError e = true ∧ isPipelineError e = true)) ∧
    (∀ (α : Type) (reg : Registry α) (steps : List String) (e : PLError),
      build_pipeline reg steps = .error e → isPipelineError e = true) ∧
    (∀ (α : Type) (names : List String) (fns : List (α → Except String α))
       (i : Nat) (x : α) (e : PLError),
      pipelineRun names fns i x = .error e → isPipelineError e = true) := by
  refine ⟨?_, ?_, ?_, ?_, ?_, ?_⟩
  · intro e; cases e <;> simp [isConfigError, isRegistryError, isPipelineError]
  · intro e; cases e <;> simp [isConfigError, isRegistryError]
  · intro e; cases e <;> simp [isConfigError, isPipelineError]
  · intro e; cases e <;> simp [isRegistryError, isPipelineError]
  · intro α reg steps e h; exact build_pipeline_err_pipeline h
  · intro α names fns i x e h; exact pipelineRun_err_pipeline h

/-- Witness for C5 amended at concrete errors: the trichotomy at a
`ConfigError`, and the `PipelineError` kind of one construction failure
and one execution failure. -/
theorem error_taxonomy_three_kinds_witness :
    (isConfigError (.configError "x") = true ∨
      isRegistryError (.configError "x") = true ∨
      isPipelineError (.configError "x") = true) ∧
    isPipelineError (.pipelineError (unknownStepsMsg ["zz"] ["a"]) none) = true ∧
    isPipelineError (.pipelineError (execMsg "a" "boom") (some "boom")) = true :=
  ⟨error_taxonomy_three_kinds.1 (.configError "x"),
   error_taxonomy_three_kinds.2.2.2.2.1 Nat oneRegistry ["zz"] _ rfl,
   error_taxonomy_three_kinds.2.2.2.2.2 Nat ["a"] (pipeOf failRegistry ["a"]).fns 0 0 _ rfl⟩

/-- Counterexample to C6 as stated: a step name can be absent from the
registry and yet not be enumerated — the empty step name `""` is missing
from `oneRegistry`, but `build_pipeline` fails on it earlier with the
invalid-step-name message, which is not the missing-steps report. -/
theorem empty_step_name_not_enumerated :
    build_pipeline oneRegistry [""] = .error (.pipelineError (invalidStepMsg 0 "") none) ∧
    (lookupA oneRegistry "").isNone = true ∧
    invalidStepMsg 0 "" ≠ unknownStepsMsg [""] ((oneRegistry.map Prod.fst).take 20) :=
  ⟨rfl, rfl, by decide⟩

/-- C6 amended: for every registry and list of non-empty step names with
at least one name missing from the registry, `build_pipeline` fails with
a `PipelineError` whose message lists every missing name, in order, next
to a 20-name preview of the available keys; every missing name of the
step list appears in that listing.  (An empty step name instead fails
earlier with an index-naming invalid-step error.) -/
theorem missing_steps_all_enumerated {α : Type} {reg : Registry α} {steps : List String}
    (hne : ∀ t ∈ steps, t ≠ "")
    (hmiss : ∃ t ∈ steps, (lookupA reg t).isNone = true) :
    build_pipeline reg steps =
      .error (.pipelineError (unknownStepsMsg
        (steps.filter (fun t => (lookupA reg t).isNone))
        ((reg.map Prod.fst).take 20)) none) ∧
    ∀ t ∈ steps, (lookupA reg t).isNone = true →
      t ∈ steps.filter (fun t => (lookupA reg t).isNone) := by
  constructor
  · unfold build_pipeline
    rw [invalidNameIdx_none hne]
    obtain ⟨t, ht, hnone⟩ := hmiss
    have hmem : t ∈ steps.filter (fun t => (lookupA reg t).isNone) :=
      List.mem_filter.mpr ⟨ht, hnone⟩
    have hfe : (steps.filter (fun t => (lookupA reg t).isNone)).isEmpty = false := by
      cases hfil : steps.filter (fun t => (lookupA reg t).isNone) with
      | nil => rw [hfil] at hmem; simp at hmem
      | cons a l => rfl
    simp only [hfe]
    rfl
  · intro t ht hnone
    exact List.mem_filter.mpr ⟨ht, hnone⟩

/-- Witness for C6 amended: steps `["zz", "a", "yy"]` against the
one-entry registry — both `zz` and `yy` are reported, in one message. -/
theorem missing_steps_all_enumerated_witness :
    build_pipeline oneRegistry ["zz", "a", "yy"] =
      .error (.pipelineError (unknownStepsMsg
        (["zz", "a", "yy"].filter (fun t => (lookupA oneRegistry t).isNone))
        ((oneRegistry.map Prod.fst).take 20)) none) ∧
    "yy" ∈ ["zz", "a", "yy"].filter (fun t => (lookupA oneRegistry t).isNone) := by
  have h := @missing_steps_all_enumerated Nat oneRegistry ["zz", "a", "yy"]
    (by decide) ⟨"zz", by decide⟩
  exact ⟨h.1, h.2 "yy" (by decide) (by decide)⟩

end PluginLoader
